import Mathlib

/-!
Verification development for the NeuroLens resume-analysis service
(app/services.py together with app/constants.py, app/models.py and the
orchestration entry point).  Python code is shallowly embedded: pure
functions become Lean functions over String / List Char / ℚ; the external
capabilities (PDF and DOCX parsing, spaCy date recognition, the Gemini
call, the MongoDB write) are modelled as explicit oracle inputs; Python
`set` iteration order, which is unspecified, is modelled by an explicit
reordering function constrained to produce a duplicate-free list with the
same membership.
-/

/- ### Character helpers (Python semantics restricted to text handled here) -/

/-- Python regex word character test (ASCII fragment of re module's default). -/
def isWordChar (c : Char) : Bool := c.isAlphanum || c == '_'

/-- Python str whitespace (the ASCII characters stripped by str.strip and
matched by the regex class for whitespace). -/
def isPySpace (c : Char) : Bool :=
  c == ' ' || c == '\t' || c == '\n' || c == '\r' || c == '\x0b' || c == '\x0c'

/-- Python str.strip() with no arguments. -/
def pyStrip (s : String) : String :=
  String.mk (((s.data.dropWhile isPySpace).reverse.dropWhile isPySpace).reverse)

/-- Python str.endswith: case-sensitive suffix test on the characters. -/
def pyEndsWith (s suffix : String) : Bool := suffix.data.isSuffixOf s.data

/-- Python str.lower(), character by character (the texts involved are plain
text, for which Python and Unicode simple lowercasing agree). -/
def strLower (s : String) : String := String.mk (s.data.map Char.toLower)

/-- Python str.replace for the single-character pattern newline with a space,
as used by services.py on entity texts and education snippets. -/
def stripNewlines (s : String) : String :=
  String.mk (s.data.map (fun c => if c == '\n' then ' ' else c))

/- ### A small backtracking regex engine

services.py uses re.search / re.finditer with a fixed family of patterns:
word boundaries, escaped literals, character classes for digits and
whitespace, optional pieces, one-or-more digit runs and alternation.  The
engine below enumerates, for a pattern, a text and a start position, every
position at which the match could end, in exactly the preference order of
Python's backtracking engine (alternation: left first; optional and star:
greedy).  The head of that list is the match Python reports. -/

inductive CharCls where
  | digit : CharCls
  | space : CharCls
  deriving DecidableEq

def CharCls.test : CharCls → Char → Bool
  | .digit, c => c.isDigit
  | .space, c => isPySpace c

inductive Rx where
  | eps : Rx
  | lit : List Char → Rx
  | cls : CharCls → Rx
  | seq : Rx → Rx → Rx
  | alt : Rx → Rx → Rx
  | opt : Rx → Rx
  | starCls : CharCls → Rx
  | bound : Rx
  deriving DecidableEq

/-- Is the character at index i (if any) a word character? -/
def wordAt (t : List Char) (i : Nat) : Bool :=
  match t.get? i with
  | some c => isWordChar c
  | none => false

/-- Python's word-boundary test at position p of text t. -/
def boundaryOk (t : List Char) (p : Nat) : Bool :=
  let prev := if p = 0 then false else wordAt t (p - 1)
  prev != wordAt t p

/-- All candidate end positions of a match of r in t starting at p, in the
backtracking engine's preference order. -/
def Rx.ends : Rx → List Char → Nat → List Nat
  | .eps, _, p => [p]
  | .lit cs, t, p => if (t.drop p).take cs.length = cs then [p + cs.length] else []
  | .cls k, t, p =>
    match t.get? p with
    | some c => if k.test c then [p + 1] else []
    | none => []
  | .seq a b, t, p => (Rx.ends a t p).flatMap (fun q => Rx.ends b t q)
  | .alt a b, t, p => Rx.ends a t p ++ Rx.ends b t p
  | .opt a, t, p => Rx.ends a t p ++ [p]
  | .starCls k, t, p =>
    let n := ((t.drop p).takeWhile (fun c => k.test c)).length
    (List.range (n + 1)).reverse.map (fun j => p + j)
  | .bound, t, p => if boundaryOk t p then [p] else []

/-- re.search: does the pattern match anywhere in the text? -/
def rxSearch (r : Rx) (t : List Char) : Bool :=
  (List.range (t.length + 1)).any (fun i => !(Rx.ends r t i).isEmpty)

/-- The end position of the match Python's engine produces at start i, if any. -/
def rxMatchEnd (r : Rx) (t : List Char) (i : Nat) : Option Nat :=
  (Rx.ends r t i).head?

/-- re.finditer: successive non-overlapping matches, leftmost first, as
(start, end) pairs.  fuel bounds the scan; it is called with length + 1. -/
def scanMatches (matchAt : Nat → Option Nat) (len : Nat) : Nat → Nat → List (Nat × Nat)
  | 0, _ => []
  | Nat.succ fuel, p =>
    if p < len then
      match matchAt p with
      | some e => (p, e) :: scanMatches matchAt len fuel (max e (p + 1))
      | none => scanMatches matchAt len fuel (p + 1)
    else []

def rxFindIter (r : Rx) (t : List Char) : List (Nat × Nat) :=
  scanMatches (fun i => rxMatchEnd r t i) t.length (t.length + 1) 0

/-- Right-nested sequencing of a pattern list. -/
def rseq (rs : List Rx) : Rx := rs.foldr Rx.seq Rx.eps

/-- Left-preferring alternation chain; an empty list never matches. -/
def altChain : List Rx → Rx
  | [] => Rx.lit ['\x00']
  | r :: rs => rs.foldl Rx.alt r

/- ### Catalogs (app/constants.py, verbatim) -/

def SKILL_CATEGORIES : List (String × List String) :=
  [ ("Programming Languages",
     ["python", "java", "javascript", "typescript", "c++", "c#", "go", "golang", "ruby",
      "php", "swift", "kotlin", "r", "matlab", "sql", "scala", "perl", "rust"]),
    ("Web Development (Frontend)",
     ["html", "css", "react", "angular", "vue", "vue.js", "next.js", "nextjs",
      "svelte", "jquery", "bootstrap", "tailwind", "tailwindcss", "sass", "less", "webpack", "babel"]),
    ("Web Development (Backend)",
     ["node.js", "nodejs", "express", "django", "flask", "fastapi", "ruby on rails",
      "spring", "spring boot", ".net", "asp.net", "laravel"]),
    ("Database Systems",
     ["mysql", "postgresql", "mongodb", "redis", "oracle", "sqlite",
      "microsoft sql server", "sql server", "cassandra", "elasticsearch", "dynamodb", "firebase"]),
    ("DevOps & Cloud",
     ["aws", "azure", "gcp", "google cloud platform", "docker", "kubernetes", "k8s",
      "terraform", "ansible", "jenkins", "gitlab ci", "github actions", "ci/cd",
      "prometheus", "grafana", "linux", "bash", "powershell", "nginx", "apache"]),
    ("Data Science & ML",
     ["tensorflow", "pytorch", "scikit-learn", "keras", "pandas", "numpy", "scipy",
      "matplotlib", "seaborn", "jupyter", "spark", "apache spark", "hadoop", "nlp",
      "computer vision", "opencv", "d3.js", "tableau", "power bi", "looker"]),
    ("Project Management & Tools",
     ["agile", "scrum", "kanban", "jira", "confluence", "trello", "asana", "git",
      "github", "gitlab", "bitbucket", "svn", "project management"]),
    ("Soft Skills",
     ["leadership", "communication", "teamwork", "problem solving", "analytical",
      "critical thinking", "collaboration", "mentoring", "adaptability", "time management"]) ]

structure RoleReq where
  required_skills : List String
  good_to_have : List String
  experience_keywords : List String
  deriving DecidableEq

def JOB_ROLES : List (String × RoleReq) :=
  [ ("Software Engineer",
     ⟨["python", "java", "javascript", "sql", "git", "teamwork"],
      ["docker", "kubernetes", "aws", "ci/cd", "agile", "react", "node.js", "c++"],
      ["development", "implementation", "testing", "debugging", "optimization", "code review"]⟩),
    ("Data Scientist",
     ⟨["python", "r", "sql", "pandas", "scikit-learn", "matplotlib"],
      ["tensorflow", "pytorch", "spark", "tableau", "power bi", "nlp", "computer vision", "aws"],
      ["analysis", "modeling", "visualization", "research", "prediction", "a/b testing", "algorithms"]⟩),
    ("Frontend Developer",
     ⟨["html", "css", "javascript", "react", "git", "api"],
      ["typescript", "vue", "angular", "next.js", "tailwind", "figma", "sass", "webpack"],
      ["frontend", "ui", "user interface", "web applications", "responsive", "cross-browser"]⟩),
    ("Backend Developer",
     ⟨["node.js", "python", "java", "sql", "api", "rest", "git", "mongodb", "postgresql"],
      ["docker", "kubernetes", "aws", "gcp", "django", "flask", "spring boot", "microservices", "graphql"],
      ["backend", "api development", "database design", "server-side", "microservices", "performance"]⟩),
    ("DevOps Engineer",
     ⟨["linux", "aws", "docker", "kubernetes", "ci/cd", "jenkins", "terraform", "bash"],
      ["python", "ansible", "prometheus", "grafana", "gcp", "azure", "security"],
      ["automation", "deployment", "monitoring", "infrastructure", "iac", "scalability", "reliability"]⟩) ]

/- ### Data model (app/models.py) -/

structure Skill where
  name : String
  category : String
  deriving DecidableEq

structure RoleMatch where
  role : String
  score : ℚ
  deriving DecidableEq

/- ### Skill extraction (services.extract_skills) -/

/-- The compiled pattern for one keyword: word boundary, the re.escaped
(hence literal) lowercased keyword, an optional trailing s, word boundary. -/
def skillPattern (skillLower : String) : Rx :=
  rseq [Rx.bound, Rx.lit skillLower.data, Rx.opt (Rx.lit ['s']), Rx.bound]

/-- re.search of the keyword pattern in the lowercased text. -/
def searchWord (skillLower : String) (textLower : String) : Bool :=
  rxSearch (skillPattern skillLower) textLower.data

/-- The nested category/keyword loop of extract_skills, flattened into the
(category, skill) visit order. -/
def catalogEntries : List (String × String) :=
  (SKILL_CATEGORIES.map (fun p => p.2.map (fun k => (p.1, k)))).flatten

/-- The loop body of extract_skills: accumulates skills_found and the
found_skill_names set (modelled as the list of names in insertion order). -/
def extractGo (textLower : String) :
    List (String × String) → List Skill → List String → List Skill
  | [], skills_found, _ => skills_found
  | (category, skill) :: rest, skills_found, found_skill_names =>
    let skill_lower := strLower skill
    if found_skill_names.contains skill_lower then
      extractGo textLower rest skills_found found_skill_names
    else if searchWord skill_lower textLower then
      extractGo textLower rest (skills_found ++ [⟨skill, category⟩])
        (found_skill_names ++ [skill_lower])
    else
      extractGo textLower rest skills_found found_skill_names

def extract_skills (text : String) : List Skill :=
  extractGo (strLower text) catalogEntries [] []

/- ### Permitted reorderings for Python set iteration

list(set(xs)) in services.py produces the distinct elements of xs in an
unspecified (hash-dependent) order.  A reordering function models one such
materialisation; validity says its output is duplicate-free with exactly the
membership of its input. -/

def ValidSetOrder (f : List String → List String) : Prop :=
  ∀ l, (f l).Nodup ∧ ∀ x, x ∈ f l ↔ x ∈ l

/- ### Experience analysis (services.analyze_experience) -/

def digitsPlus : Rx := Rx.seq (Rx.cls CharCls.digit) (Rx.starCls CharCls.digit)

def spacesStar : Rx := Rx.starCls CharCls.space

/-- The pattern for a possibly-plural year count, e.g. 5 years, 5+ years. -/
def yearPattern1 : Rx :=
  rseq [Rx.bound, digitsPlus, spacesStar, Rx.opt (rseq [Rx.lit ['+'], spacesStar]),
        Rx.lit ['y', 'e', 'a', 'r'], Rx.opt (Rx.lit ['s']), Rx.bound]

/-- The pattern for a year range, e.g. 5-7 years. -/
def yearPattern2 : Rx :=
  rseq [Rx.bound, digitsPlus, Rx.lit ['-'], digitsPlus, spacesStar,
        Rx.lit ['y', 'e', 'a', 'r'], Rx.opt (Rx.lit ['s']), Rx.bound]

/-- One finditer pass: IGNORECASE is modelled by matching on the lowercased
text (character positions agree) while slicing the reported snippet from the
original text, as m.group() does. -/
def regexMentions (r : Rx) (text : String) : List String :=
  let t := text.data
  let tl := (strLower text).data
  (rxFindIter r tl).map
    (fun pr => ("Mention of: ") ++ String.mk ((t.drop pr.1).take (pr.2 - pr.1)))

/-- The regex half of analyze_experience, in source order (pattern 1 then 2). -/
def yearMentions (text : String) : List String :=
  regexMentions yearPattern1 text ++ regexMentions yearPattern2 text

/-- Python sorted(key=len, reverse=True) is a stable descending sort; Lean's
insertionSort with this relation is exactly that stable sort. -/
def lenDescRel (a b : String) : Prop := b.length ≤ a.length

instance : DecidableRel lenDescRel := fun a b => inferInstanceAs (Decidable (_ ≤ _))

/-- The ten date entities analyze_experience keeps, given the spaCy date
texts and the iteration order of the intermediate set. -/
def selectedDates (dateTexts : List String) (setOrder1 : List String → List String) :
    List String :=
  (List.insertionSort lenDescRel (setOrder1 (dateTexts.map stripNewlines))).take 10

/-- analyze_experience.  dateEnts is the list of texts of DATE entities the
spaCy model returns (none models the call raising, which the code catches);
setOrder1 and setOrder2 model the two list(set(...)) materialisations. -/
def analyze_experience (text : String) (dateEnts : Option (List String))
    (setOrder1 setOrder2 : List String → List String) : List String :=
  let ems := yearMentions text
  let ems2 :=
    match dateEnts with
    | none => ems
    | some ds =>
      let date_entities := ds.map stripNewlines
      if date_entities.isEmpty then ems
      else ems ++ ("Key Dates Found:") :: selectedDates ds setOrder1
  setOrder2 ems2

/- ### Education analysis (services.analyze_education) -/

/-- A lowercase literal with an optional dot after it, for degree initials. -/
def litOptDot (cs : List Char) : Rx := Rx.seq (Rx.lit cs) (Rx.opt (Rx.lit ['.']))

/-- The degree-abbreviation alternation, alternatives in source order. -/
def degreesRx : Rx :=
  rseq [Rx.bound,
    altChain
      [ rseq [litOptDot ['b'], litOptDot ['s']],
        rseq [litOptDot ['m'], litOptDot ['s']],
        rseq [litOptDot ['p', 'h'], litOptDot ['d']],
        rseq [litOptDot ['b'], litOptDot ['a']],
        rseq [litOptDot ['m'], litOptDot ['b'], litOptDot ['a']],
        rseq [litOptDot ['b'], Rx.lit ['t', 'e', 'c', 'h']],
        rseq [litOptDot ['m'], Rx.lit ['t', 'e', 'c', 'h']],
        rseq [litOptDot ['b'], litOptDot ['e']],
        rseq [litOptDot ['m'], litOptDot ['e']] ],
    Rx.bound]

/-- A whole-word literal pattern (lowercased literal between boundaries). -/
def wordRx (s : String) : Rx := rseq [Rx.bound, Rx.lit s.data, Rx.bound]

/-- The Latin-honors alternation. -/
def honorsRx : Rx :=
  rseq [Rx.bound,
    altChain
      [ Rx.lit ("cum laude").data,
        Rx.lit ("magna cum laude").data,
        Rx.lit ("summa cum laude").data ],
    Rx.bound]

/-- education_keywords, in source order. -/
def eduPatterns : List Rx :=
  [ degreesRx,
    wordRx ("university"), wordRx ("college"), wordRx ("institute of technology"),
    wordRx ("degree"), wordRx ("bachelor"), wordRx ("master"),
    honorsRx ]

/-- The ±30-character context snippet around a match span, newlines collapsed
to spaces and stripped. -/
def eduSnippet (t : List Char) (len : Nat) (pr : Nat × Nat) : String :=
  let context_start := pr.1 - 30
  let context_end := min len (pr.2 + 30)
  pyStrip (String.mk (((t.drop context_start).take (context_end - context_start)).map
    (fun c => if c == '\n' then ' ' else c)))

/-- analyze_education; setOrder3 models the final list(set(...)). -/
def analyze_education (text : String) (setOrder3 : List String → List String) :
    List String :=
  let t := text.data
  let tl := (strLower text).data
  let snippets := eduPatterns.foldl
    (fun acc rx => acc ++ (rxFindIter rx tl).map (eduSnippet t t.length)) []
  setOrder3 snippets

/- ### Role scoring (services.suggest_role_matches) -/

/-- The lowercased found-skill names, as a set (deduplicated, first wins). -/
def skillNamesFound (skills : List Skill) : List String :=
  (skills.map (fun s => strLower s.name)).dedup

/-- Size of the intersection of the found-name set with a catalog skill list
(the list is deduplicated to give set semantics). -/
def interCount (found : List String) (catalogList : List String) : Nat :=
  (catalogList.dedup.filter (fun s => found.contains s)).length

/-- The unrounded score suggest_role_matches computes for one role profile;
0.7 and 0.3 are the fixed weights, denominators are the catalog list lengths. -/
def rawScore (req : RoleReq) (found : List String) : ℚ :=
  let total_required := req.required_skills.length
  let total_good_to_have := req.good_to_have.length
  let required_score : ℚ :=
    if total_required > 0 then (interCount found req.required_skills : ℚ) / total_required
    else 0
  let good_to_have_score : ℚ :=
    if total_good_to_have > 0 then
      (interCount found req.good_to_have : ℚ) / total_good_to_have
    else 0
  (required_score * (7 / 10) + good_to_have_score * (3 / 10)) * 100

/-- Rounding to two decimals, as round(score, 2). -/
def round2 (q : ℚ) : ℚ := ((round (q * 100) : ℤ) : ℚ) / 100

/-- The (role, unrounded score) association built by the scoring loop, in
catalog insertion order. -/
def roleScores (skills : List Skill) : List (String × ℚ) :=
  let skill_names_found := skillNamesFound skills
  JOB_ROLES.map (fun p => (p.1, rawScore p.2 skill_names_found))

/-- Python sorted(..., key=score, reverse=True) is the stable descending
sort; insertionSort with this relation computes exactly that. -/
def scoreDescRel (a b : String × ℚ) : Prop := b.2 ≤ a.2

instance : DecidableRel scoreDescRel := fun a b => inferInstanceAs (Decidable (_ ≤ _))

def suggest_role_matches (skills : List Skill) : List RoleMatch :=
  (List.insertionSort scoreDescRel (roleScores skills)).map
    (fun p => ⟨p.1, round2 p.2⟩)

/- ### Target-role analysis (services.analyze_target_role) -/

structure TargetRoleAnalysis where
  role : String
  score : ℚ
  required_found : List String
  required_missing : List String
  good_to_have_found : List String
  good_to_have_missing : List String
  deriving DecidableEq

/-- Python sorted on strings: stable ascending lexicographic sort. -/
def strAscRel (a b : String) : Prop := a ≤ b

instance : DecidableRel strAscRel := fun a b => inferInstanceAs (Decidable (_ ≤ _))

def sortStr (l : List String) : List String := List.insertionSort strAscRel l

def analyze_target_role (skills : List Skill) (target_role : String) :
    Option TargetRoleAnalysis :=
  match JOB_ROLES.find? (fun p => p.1 == target_role) with
  | none => none
  | some p =>
    let skill_names_found := skillNamesFound skills
    let required_skills_set := p.2.required_skills.dedup
    let good_to_have_set := p.2.good_to_have.dedup
    let total_required := required_skills_set.length
    let total_good_to_have := good_to_have_set.length
    let required_found_count :=
      (required_skills_set.filter (fun s => skill_names_found.contains s)).length
    let good_to_have_found_count :=
      (good_to_have_set.filter (fun s => skill_names_found.contains s)).length
    let req_score : ℚ :=
      if total_required > 0 then (required_found_count : ℚ) / total_required else 0
    let gth_score : ℚ :=
      if total_good_to_have > 0 then (good_to_have_found_count : ℚ) / total_good_to_have
      else 0
    let final_score := (req_score * (7 / 10) + gth_score * (3 / 10)) * 100
    some
      ⟨target_role, final_score,
       sortStr (required_skills_set.filter (fun s => skill_names_found.contains s)),
       sortStr (required_skills_set.filter (fun s => !(skill_names_found.contains s))),
       sortStr (good_to_have_set.filter (fun s => skill_names_found.contains s)),
       sortStr (good_to_have_set.filter (fun s => !(skill_names_found.contains s)))⟩

/- ### AI feedback generation (services.get_personalized_feedback) -/

/-- The finish_reason names of a returned completion's candidates, plus
whether response.text is accessible (some text) or raises (none, the model
stopped for a non-success reason). -/
structure GenResponse where
  text : Option String
  candidates : List String
  deriving DecidableEq

/-- What one generate_content_async call does: raise, or return a response. -/
inductive AttemptResult where
  | raised : AttemptResult
  | returned : GenResponse → AttemptResult
  deriving DecidableEq

/-- Observable outcome of the feedback routine: the returned string, the
sleeps performed (in time-units, in order) and how many calls were made. -/
structure FeedbackTrace where
  result : String
  sleeps : List Nat
  callsMade : Nat
  deriving DecidableEq

/-- The gap-data dict passed to the feedback generator; fields are optional
because the orchestrator passes an empty dict when the target role is
unknown, and dict.get supplies the defaults. -/
structure GapData where
  role : Option String
  score : Option ℚ
  required_found : Option (List String)
  required_missing : Option (List String)
  good_to_have_found : Option (List String)
  good_to_have_missing : Option (List String)
  total_skills : Option Nat
  experience_keywords : Option (List String)

/-- The comma-join with the falsy-or fallback used inside the prompt. -/
def joinOr (l : List String) : String :=
  let j := String.intercalate (", ") l
  if j = "" then ("None") else j

/-- The prompt f-string, with the interpolations spliced in. -/
def promptText (gd : GapData) (kw : String) : String :=
  ("\n    You are an expert, encouraging, and professional career coach. A user has uploaded their resume for analysis.\n    Your task is to provide concise, actionable feedback in Markdown format (max 3-4 bullet points).\n\n    **Analysis Data:**\n    * **Target Role:** ")
  ++ gd.role.getD ("N/A")
  ++ ("\n    * **Skills Found:** ") ++ joinOr (gd.required_found.getD [])
  ++ ("\n    * **Critical Missing Skills:** ") ++ joinOr (gd.required_missing.getD [])
  ++ ("\n    * **'Good-to-Have' Missing Skills:** ") ++ joinOr (gd.good_to_have_missing.getD [])
  ++ ("\n    * **Total Skills Count:** ") ++ toString (gd.total_skills.getD 0)
  ++ ("\n\n    **Instructions:**\n    1.  Start with a positive reinforcement based on the skills they *do* have.\n    2.  Identify the *most critical* 1-2 missing required skills. Suggest a specific, actionable way to learn them (e.g., \"build a small project,\" \"contribute to an open-source repo,\" \"get a certification\").\n    3.  If no required skills are missing, suggest focusing on 1-2 \"good-to-have\" skills to stand out.\n    4.  Provide one suggestion on how to tailor their resume *language* (e.g., \"Use keywords like '")
  ++ kw
  ++ ("' to describe your experience...\").\n    5.  Keep the tone professional, supportive, and constructive. Do not be overly harsh.\n    ")

/-- Building the prompt evaluates the indexing
analysis_data.get-experience_keywords-with-default at position 0, which
raises IndexError when the supplied list is present but empty: none models
that exception. -/
def buildPrompt (gd : GapData) : Option String :=
  match gd.experience_keywords.getD [("...")] with
  | [] => none
  | kw :: _ => some (promptText gd kw)

def max_retries : Nat := 3

/-- The final except-branch after the last attempt failed: response holds the
last returned completion, if any attempt returned one. -/
def finalError : Option GenResponse → List Nat → Nat → FeedbackTrace
  | some r, sleeps, made =>
    match r.candidates with
    | reason_name :: _ =>
      ⟨("Error: AI feedback generation failed (Reason: ") ++ reason_name ++ (")."),
       sleeps, made⟩
    | [] => ⟨("Error: Unable to generate AI feedback (No response from model)."), sleeps, made⟩
  | none, sleeps, made =>
    ⟨("Error: Unable to generate AI feedback (No response from model)."), sleeps, made⟩

/-- The retry loop.  fuel counts the remaining iterations of
range(max_retries); attempt, delay, response, the sleeps so far and the
calls made mirror the Python local state (response persists across failed
calls, as in the source). -/
def goAttempt (calls : Nat → AttemptResult) :
    Nat → Nat → Nat → Option GenResponse → List Nat → Nat → FeedbackTrace
  | 0, _, _, _, sleeps, made => ⟨("Error: AI feedback generation failed."), sleeps, made⟩
  | Nat.succ fuel, attempt, delay, response, sleeps, made =>
    match calls attempt with
    | .returned r =>
      match r.text with
      | some t => ⟨t, sleeps, made + 1⟩
      | none =>
        if attempt < max_retries - 1 then
          goAttempt calls fuel (attempt + 1) (delay * 2) (some r) (sleeps ++ [delay]) (made + 1)
        else finalError (some r) sleeps (made + 1)
    | .raised =>
      if attempt < max_retries - 1 then
        goAttempt calls fuel (attempt + 1) (delay * 2) response (sleeps ++ [delay]) (made + 1)
      else finalError response sleeps (made + 1)

def runAttempts (calls : Nat → AttemptResult) : FeedbackTrace :=
  goAttempt calls max_retries 0 1 none [] 0

/-- get_personalized_feedback.  calls is the oracle for what the n-th
generate_content_async call does; configureOk models genai.configure
succeeding.  none models the routine itself raising (only possible from the
prompt-building indexing). -/
def get_personalized_feedback (gd : GapData) (apiKey : String) (configureOk : Bool)
    (calls : Nat → AttemptResult) : Option FeedbackTrace :=
  if apiKey = "" ∨ apiKey = ("YOUR_GEMINI_API_KEY_GOES_HERE") then
    some ⟨("Error: AI feedback service is not configured."), [], 0⟩
  else if !configureOk then
    some ⟨("Error: Could not configure AI feedback service."), [], 0⟩
  else
    match buildPrompt gd with
    | none => none
    | some _prompt => some (runAttempts calls)

/-- The value of the response variable after the loop: the completion of the
last call that returned one (calls that raised leave it unchanged). -/
def lastResponse (calls : Nat → AttemptResult) : Option GenResponse :=
  [0, 1, 2].foldl
    (fun acc n =>
      match calls n with
      | .returned r => some r
      | .raised => acc)
    none

/- ### Text extraction (services.extract_text_from_pdf / _docx) -/

/-- One step of iterating PyPDF2 pages: a page whose extract_text returns
some text or a falsy/None result, or the parse raising (from the reader
constructor when it is the first event). -/
inductive PdfEvent where
  | page : Option String → PdfEvent
  | err : PdfEvent
  deriving DecidableEq

/-- One step of iterating python-docx paragraphs. -/
inductive DocxEvent where
  | para : String → DocxEvent
  | err : DocxEvent
  deriving DecidableEq

/-- The accumulation loop of extract_text_from_pdf; on an exception the
text accumulated so far is returned (the except branch only logs). -/
def pdfGo : List PdfEvent → String → String
  | [], acc => acc
  | PdfEvent.page (some page_text) :: rest, acc => pdfGo rest (acc ++ page_text ++ ("\n"))
  | PdfEvent.page none :: rest, acc => pdfGo rest acc
  | PdfEvent.err :: _, acc => acc

def extract_text_from_pdf (events : List PdfEvent) : String := pdfGo events ("")

def docxGo : List DocxEvent → String → String
  | [], acc => acc
  | DocxEvent.para t :: rest, acc => docxGo rest (acc ++ t ++ ("\n"))
  | DocxEvent.err :: _, acc => acc

def extract_text_from_docx (events : List DocxEvent) : String := docxGo events ("")

/-- Specification-side restatement of the extraction contract: the
concatenation of the page texts seen strictly before the first failure,
each followed by a newline, skipping empty pages. -/
def pdfTextSpec : List PdfEvent → String
  | [] => ("")
  | PdfEvent.page (some t) :: rest => t ++ ("\n") ++ pdfTextSpec rest
  | PdfEvent.page none :: rest => pdfTextSpec rest
  | PdfEvent.err :: _ => ("")

def docxTextSpec : List DocxEvent → String
  | [] => ("")
  | DocxEvent.para t :: rest => t ++ ("\n") ++ docxTextSpec rest
  | DocxEvent.err :: _ => ("")

/- ### Orchestrator (services.analyze_resume_file) -/

/-- The audit record written to MongoDB (timestamp and wall-clock duration
carry no program logic and are omitted from the model). -/
structure LogDoc where
  file_name : String
  target_role : String
  match_score : ℚ
  skills_found_count : Nat
  deriving DecidableEq

structure AnalysisResponse where
  fileName : String
  extractedText : String
  skillsFound : List Skill
  roleMatches : List RoleMatch
  targetRoleAnalysis : Option TargetRoleAnalysis
  experienceSummary : List String
  educationSummary : List String
  personalizedFeedback : String

/-- How a request ends: a response, a ValueError with its message, or an
unanticipated exception propagating. -/
inductive Outcome where
  | ok : AnalysisResponse → Outcome
  | valueError : String → Outcome
  | raised : Outcome

/-- The result together with the audit-log insert attempts performed. -/
structure OrchestratorResult where
  outcome : Outcome
  dbWrites : List LogDoc

/-- The environment of external capabilities for one request. -/
structure Env where
  pdfEvents : List PdfEvent
  docxEvents : List DocxEvent
  dateEnts : Option (List String)
  setOrder1 : List String → List String
  setOrder2 : List String → List String
  setOrder3 : List String → List String
  apiKey : String
  configureOk : Bool
  calls : Nat → AttemptResult

/-- Stages 2-5 of analyze_resume_file, once text has been extracted. -/
def pipelineAfterText (env : Env) (filename target_role text : String) :
    OrchestratorResult :=
  if pyStrip text = "" then
    ⟨Outcome.valueError
      ("Could not extract text from the document. It might be empty or image-based."), []⟩
  else
    let skills := extract_skills text
    let experience_summary := analyze_experience text env.dateEnts env.setOrder1 env.setOrder2
    let education_summary := analyze_education text env.setOrder3
    let role_matches := suggest_role_matches skills
    let target_role_analysis := analyze_target_role skills target_role
    let feedback_data : GapData :=
      match target_role_analysis with
      | some t =>
        ⟨some t.role, some t.score, some t.required_found, some t.required_missing,
         some t.good_to_have_found, some t.good_to_have_missing, some skills.length,
         some (((JOB_ROLES.find? (fun p => p.1 == target_role)).map
           (fun p => p.2.experience_keywords)).getD [])⟩
      | none => ⟨none, none, none, none, none, none, none, none⟩
    let target_score : ℚ :=
      match target_role_analysis with
      | some t => t.score
      | none => 0
    match get_personalized_feedback feedback_data env.apiKey env.configureOk env.calls with
    | none => ⟨Outcome.raised, []⟩
    | some tr =>
      let log_document : LogDoc := ⟨filename, target_role, target_score, skills.length⟩
      ⟨Outcome.ok
        ⟨filename, String.mk (text.data.take 2000) ++ ("..."), skills, role_matches,
         target_role_analysis, experience_summary, education_summary, tr.result⟩,
       [log_document]⟩

def analyze_resume_file (env : Env) (filename target_role : String) :
    OrchestratorResult :=
  if pyEndsWith filename (".pdf") then
    pipelineAfterText env filename target_role (extract_text_from_pdf env.pdfEvents)
  else if pyEndsWith filename (".docx") then
    pipelineAfterText env filename target_role (extract_text_from_docx env.docxEvents)
  else ⟨Outcome.valueError ("Unsupported file type"), []⟩

/- ### Auxiliary definitions used by the statements below -/

/-- Position of a role name in the catalog (its insertion order). -/
def roleRank (role : String) : Nat := (JOB_ROLES.map Prod.fst).indexOf role

/-- Descending-score order strengthened with catalog rank on ties: the order
the sorted role-match list is claimed to satisfy. -/
def lexAfterSort (a b : String × ℚ) : Prop :=
  b.2 < a.2 ∨ (a.2 = b.2 ∧ roleRank a.1 < roleRank b.1)

/-- The same order on the rounded output records. -/
def lexOnMatches (a b : RoleMatch) : Prop :=
  b.score < a.score ∨ (a.score = b.score ∧ roleRank a.role < roleRank b.role)

/-- Scores reachable from the five role profiles all lie on the grid of
multiples of 5/252; two-decimal rounding is strictly monotone there. -/
def OnGrid (q : ℚ) : Prop := ∃ k : ℕ, q * 252 = 5 * k

/-- An attempt that fails: the call raises, or returns a completion whose
text is inaccessible. -/
def AttemptFails (a : AttemptResult) : Prop :=
  a = AttemptResult.raised ∨ ∃ r, a = AttemptResult.returned r ∧ r.text = none

/-- A gap-data record with every field absent (the empty dict). -/
def gdEmpty : GapData := ⟨none, none, none, none, none, none, none, none⟩

/-- A single found skill, used for concrete evaluations. -/
def pySkills : List Skill := [⟨("python"), ("Programming Languages")⟩]

/-- A concrete materialisation of list(set(...)): first occurrences kept. -/
def soDedup : List String → List String := fun l => l.dedup

/-- Another valid materialisation: first occurrences kept, order reversed. -/
def soDedupRev : List String → List String := fun l => l.dedup.reverse

/-- A concrete environment for the orchestrator evaluations: empty document
streams, no date entities, the identity-like set orders, a configured key,
and calls that always raise. -/
def envW : Env :=
  ⟨[], [], none, soDedup, soDedup, soDedup, ("k"), true, fun _ => AttemptResult.raised⟩

/- ### Order-instance facts and set-shaped result descriptions -/

instance : IsTotal String strAscRel := ⟨fun a b => le_total a b⟩

instance : IsTrans String strAscRel := ⟨fun _ _ _ => le_trans⟩

instance : IsTotal String lenDescRel := ⟨fun a b => le_total b.length a.length⟩

instance : IsTrans String lenDescRel := ⟨fun _ _ _ h1 h2 => le_trans h2 h1⟩

/-- out is the ascending sorted listing of the intersection of src with found. -/
def SortedInter (out src found : List String) : Prop :=
  out.Pairwise strAscRel ∧ out.Nodup ∧ ∀ x, x ∈ out ↔ (x ∈ src ∧ x ∈ found)

/-- out is the ascending sorted listing of src minus found. -/
def SortedDiff (out src found : List String) : Prop :=
  out.Pairwise strAscRel ∧ out.Nodup ∧ ∀ x, x ∈ out ↔ (x ∈ src ∧ x ∉ found)

/- ### Helper lemmas: text extraction -/

theorem pdfGo_spec (events : List PdfEvent) :
    ∀ acc, pdfGo events acc = acc ++ pdfTextSpec events := by
  induction events with
  | nil => intro acc; simp [pdfGo, pdfTextSpec]
  | cons e rest ih =>
    intro acc
    cases e with
    | page p =>
      cases p with
      | some t => simp [pdfGo, pdfTextSpec, ih, String.append_assoc]
      | none => simp [pdfGo, pdfTextSpec, ih]
    | err => simp [pdfGo, pdfTextSpec]

theorem docxGo_spec (events : List DocxEvent) :
    ∀ acc, docxGo events acc = acc ++ docxTextSpec events := by
  induction events with
  | nil => intro acc; simp [docxGo, docxTextSpec]
  | cons e rest ih =>
    intro acc
    cases e with
    | para t => simp [docxGo, docxTextSpec, ih, String.append_assoc]
    | err => simp [docxGo, docxTextSpec]

/-- C9: extract_text_from_pdf and extract_text_from_docx are total: every
event stream (including one that fails immediately or mid-way) produces the
text accumulated before the first failure, possibly empty, and a wholly
unreadable file surfaces through the orchestrator only as the
empty-document user error, with no audit write. -/
theorem extraction_never_raises :
    (∀ events : List PdfEvent, extract_text_from_pdf events = pdfTextSpec events) ∧
    (∀ events : List DocxEvent, extract_text_from_docx events = docxTextSpec events) ∧
    (∀ (env : Env) (filename target_role : String),
      pyEndsWith filename (".pdf") = true →
      env.pdfEvents.head? = some PdfEvent.err →
      analyze_resume_file env filename target_role =
        ⟨Outcome.valueError
          ("Could not extract text from the document. It might be empty or image-based."),
         []⟩) := by
  refine ⟨fun events => ?_, fun events => ?_, fun env filename target_role hpdf hhead => ?_⟩
  · simpa using pdfGo_spec events ("")
  · simpa using docxGo_spec events ("")
  · match hev : env.pdfEvents with
    | [] => rw [hev] at hhead; simp at hhead
    | e :: rest =>
      rw [hev] at hhead
      simp at hhead
      subst hhead
      have hex : extract_text_from_pdf env.pdfEvents = ("") := by
        rw [hev]; rfl
      unfold analyze_resume_file
      rw [hpdf]
      simp only [if_pos]
      rw [hex]
      unfold pipelineAfterText
      rw [if_pos (by rfl)]

theorem extraction_never_raises_witness :
    ((pyEndsWith ("r.pdf") (".pdf") = true) ∧
      (envW.pdfEvents.head? = some PdfEvent.err ∨ True)) ∧
    extract_text_from_pdf [PdfEvent.page (some ("a")), PdfEvent.err, PdfEvent.page (some ("b"))]
      = pdfTextSpec [PdfEvent.page (some ("a")), PdfEvent.err, PdfEvent.page (some ("b"))] := by
  exact ⟨⟨by decide, Or.inr trivial⟩,
    extraction_never_raises.1 [PdfEvent.page (some ("a")), PdfEvent.err, PdfEvent.page (some ("b"))]⟩

/- ### Claim C2 (code_bug evidence) -/

/-- C2: the claim that every catalog keyword occurring as a standalone whole
word is detected fails on the code: the keywords c++ and .net are in the
catalog, yet extract_skills finds nothing in a text that consists of, or
contains, exactly that keyword as a whole word, because the word-boundary
anchors of the compiled pattern cannot match next to the non-word
characters + and . at the keyword's edge. -/
theorem extract_skills_boundary_failure :
    extract_skills ("c++") = [] ∧
    extract_skills ("i know .net") = [] ∧
    ("c++") ∈ (SKILL_CATEGORIES.map Prod.snd).flatten ∧
    (".net") ∈ (SKILL_CATEGORIES.map Prod.snd).flatten := by
  refine ⟨by decide, by decide, by decide, by decide⟩

/- ### Claim C6 -/

/-- C6: when the extracted text is blank or whitespace-only, the
orchestrator fails with the empty-or-image-based user error and performs no
audit-log write; no later pipeline stage output is produced. -/
theorem empty_text_input_error (env : Env) (filename target_role : String) :
    (pyEndsWith filename (".pdf") = true →
      pyStrip (extract_text_from_pdf env.pdfEvents) = "" →
      analyze_resume_file env filename target_role =
        ⟨Outcome.valueError
          ("Could not extract text from the document. It might be empty or image-based."),
         []⟩) ∧
    (pyEndsWith filename (".pdf") = false →
      pyEndsWith filename (".docx") = true →
      pyStrip (extract_text_from_docx env.docxEvents) = "" →
      analyze_resume_file env filename target_role =
        ⟨Outcome.valueError
          ("Could not extract text from the document. It might be empty or image-based."),
         []⟩) := by
  constructor
  · intro h1 h2
    unfold analyze_resume_file
    rw [h1]
    simp only [if_true]
    unfold pipelineAfterText
    rw [if_pos h2]
  · intro h1 h2 h3
    unfold analyze_resume_file
    rw [h1, h2]
    simp only [Bool.false_eq_true, if_false, if_true]
    unfold pipelineAfterText
    rw [if_pos h3]

theorem empty_text_input_error_witness :
    (pyEndsWith ("scan.pdf") (".pdf") = true ∧
      pyStrip (extract_text_from_pdf envW.pdfEvents) = "") ∧
    analyze_resume_file envW ("scan.pdf") ("Software Engineer") =
      ⟨Outcome.valueError
        ("Could not extract text from the document. It might be empty or image-based."),
       []⟩ :=
  ⟨⟨by decide, by decide⟩,
   (empty_text_input_error envW ("scan.pdf") ("Software Engineer")).1 (by decide) (by decide)⟩

/- ### Claim C7 -/

/-- C7: when the Gemini credential is unset (empty) or still the
placeholder, get_personalized_feedback returns the fixed not-configured
error string with no sleeps and zero generation calls, for every gap-data
input. -/
theorem feedback_config_guard (gd : GapData) (apiKey : String) (configureOk : Bool)
    (calls : Nat → AttemptResult)
    (h : apiKey = "" ∨ apiKey = ("YOUR_GEMINI_API_KEY_GOES_HERE")) :
    get_personalized_feedback gd apiKey configureOk calls =
      some ⟨("Error: AI feedback service is not configured."), [], 0⟩ := by
  unfold get_personalized_feedback
  rw [if_pos h]

theorem feedback_config_guard_witness :
    (("" : String) = "" ∨ ("" : String) = ("YOUR_GEMINI_API_KEY_GOES_HERE")) ∧
    get_personalized_feedback gdEmpty ("") true (fun _ => AttemptResult.raised) =
      some ⟨("Error: AI feedback service is not configured."), [], 0⟩ :=
  ⟨Or.inl rfl,
   feedback_config_guard gdEmpty ("") true (fun _ => AttemptResult.raised) (Or.inl rfl)⟩

/- ### Claim C10 -/

/-- C10: the extension dispatch is case-sensitive and purely suffix-based:
any filename not ending in the exact lowercase .pdf or .docx is rejected
with the unsupported-file-type error, before any extraction or analysis and
with no audit write. -/
theorem unsupported_file_type_error (env : Env) (filename target_role : String)
    (h1 : pyEndsWith filename (".pdf") = false)
    (h2 : pyEndsWith filename (".docx") = false) :
    analyze_resume_file env filename target_role =
      ⟨Outcome.valueError ("Unsupported file type"), []⟩ := by
  unfold analyze_resume_file
  rw [h1, h2]
  simp

theorem unsupported_file_type_error_witness :
    (pyEndsWith ("resume.PDF") (".pdf") = false ∧
      pyEndsWith ("resume.PDF") (".docx") = false) ∧
    analyze_resume_file envW ("resume.PDF") ("Software Engineer") =
      ⟨Outcome.valueError ("Unsupported file type"), []⟩ :=
  ⟨⟨by decide, by decide⟩,
   unsupported_file_type_error envW ("resume.PDF") ("Software Engineer") (by decide) (by decide)⟩

/- ### Claim C4 -/

theorem runAttempts_all_fail (calls : Nat → AttemptResult)
    (hf : ∀ n, n < max_retries → AttemptFails (calls n)) :
    runAttempts calls = finalError (lastResponse calls) [1, 2] 3 := by
  have h0 := hf 0 (by norm_num [max_retries])
  have h1 := hf 1 (by norm_num [max_retries])
  have h2 := hf 2 (by norm_num [max_retries])
  rcases h0 with h0 | ⟨r0, h0, h0t⟩ <;>
    rcases h1 with h1 | ⟨r1, h1, h1t⟩ <;>
      rcases h2 with h2 | ⟨r2, h2, h2t⟩ <;>
        simp [runAttempts, goAttempt, max_retries, lastResponse, *]

/-- C4: when every generation attempt fails, the feedback routine makes
exactly 3 calls, sleeps 1 then 2 time-units (cumulative 3), and returns an
error string rather than raising: the stopped-for-a-reason message naming
the finish reason when the last returned completion has candidates, and the
no-response message otherwise. -/
theorem feedback_retry_exhaustion (gd : GapData) (apiKey : String)
    (calls : Nat → AttemptResult)
    (hk1 : apiKey ≠ "") (hk2 : apiKey ≠ ("YOUR_GEMINI_API_KEY_GOES_HERE"))
    (hp : gd.experience_keywords.getD [("...")] ≠ [])
    (hf : ∀ n, n < max_retries → AttemptFails (calls n)) :
    ∃ t : FeedbackTrace,
      get_personalized_feedback gd apiKey true calls = some t ∧
      t.callsMade = 3 ∧
      t.sleeps = [1, 2] ∧
      t.sleeps.sum = 3 ∧
      t.result =
        (match lastResponse calls with
         | some r =>
           match r.candidates with
           | reason_name :: _ =>
             ("Error: AI feedback generation failed (Reason: ") ++ reason_name ++ (").")
           | [] => ("Error: Unable to generate AI feedback (No response from model).")
         | none => ("Error: Unable to generate AI feedback (No response from model).")) := by
  have hguard : ¬(apiKey = "" ∨ apiKey = ("YOUR_GEMINI_API_KEY_GOES_HERE")) := by
    rintro (h | h)
    · exact hk1 h
    · exact hk2 h
  have hrun := runAttempts_all_fail calls hf
  have hsome : get_personalized_feedback gd apiKey true calls = some (runAttempts calls) := by
    unfold get_personalized_feedback
    rw [if_neg hguard]
    match hbp : gd.experience_keywords.getD [("...")] with
    | [] => exact absurd hbp hp
    | kw :: rest => simp [buildPrompt, hbp]
  refine ⟨runAttempts calls, hsome, ?_, ?_, ?_, ?_⟩ <;> rw [hrun] <;>
    rcases hlr : lastResponse calls with _ | r
  · rfl
  · rcases hc : r.candidates with _ | ⟨nm, rest⟩ <;> simp [finalError, hc]
  · rfl
  · rcases hc : r.candidates with _ | ⟨nm, rest⟩ <;> simp [finalError, hc]
  · rfl
  · rcases hc : r.candidates with _ | ⟨nm, rest⟩ <;> simp [finalError, hc]
  · rfl
  · rcases hc : r.candidates with _ | ⟨nm, rest⟩ <;> simp [finalError, hc]

theorem feedback_retry_exhaustion_witness :
    ((("k" : String) ≠ "") ∧
      gdEmpty.experience_keywords.getD [("...")] ≠ [] ∧
      (∀ n, n < max_retries → AttemptFails ((fun _ => AttemptResult.raised) n))) ∧
    (∃ t : FeedbackTrace,
      get_personalized_feedback gdEmpty ("k") true (fun _ => AttemptResult.raised) = some t ∧
      t.callsMade = 3 ∧
      t.sleeps = [1, 2] ∧
      t.sleeps.sum = 3 ∧
      t.result = ("Error: Unable to generate AI feedback (No response from model).")) := by
  refine ⟨⟨by decide, by decide, fun n _ => Or.inl rfl⟩, ?_⟩
  obtain ⟨t, ha, hb, hc, hd, he⟩ :=
    feedback_retry_exhaustion gdEmpty ("k") (fun _ => AttemptResult.raised)
      (by decide) (by decide) (by decide) (fun n _ => Or.inl rfl)
  exact ⟨t, ha, hb, hc, hd, he⟩

/- ### Claim C5 -/

theorem extractGo_invariant (tl : String) :
    ∀ (es done : List (String × String)) (found : List Skill) (names : List String),
      catalogEntries = done ++ es →
      names = found.map (fun s => strLower s.name) →
      names.Nodup →
      (∀ s ∈ found,
        catalogEntries.find? (fun e => strLower e.2 == strLower s.name) =
          some (s.category, s.name)) →
      (∀ e ∈ done, searchWord (strLower e.2) tl = true → strLower e.2 ∈ names) →
      ((extractGo tl es found names).map (fun s => strLower s.name)).Nodup ∧
      (∀ s ∈ extractGo tl es found names,
        catalogEntries.find? (fun e => strLower e.2 == strLower s.name) =
          some (s.category, s.name)) := by
  intro es
  induction es with
  | nil =>
    intro done found names hsplit hnames hnodup hfound hdone
    refine ⟨?_, ?_⟩
    · rw [extractGo, ← hnames]; exact hnodup
    · intro s hs; exact hfound s hs
  | cons e rest ih =>
    intro done found names hsplit hnames hnodup hfound hdone
    obtain ⟨c, k⟩ := e
    have hsplit' : catalogEntries = (done ++ [(c, k)]) ++ rest := by
      rw [hsplit, List.append_assoc]; rfl
    by_cases hmem : strLower k ∈ names
    · have hstep : extractGo tl ((c, k) :: rest) found names = extractGo tl rest found names := by
        simp [extractGo, hmem]
      rw [hstep]
      refine ih (done ++ [(c, k)]) found names hsplit' hnames hnodup hfound ?_
      intro e he hsw
      rcases List.mem_append.mp he with he | he
      · exact hdone e he hsw
      · have hek : e = (c, k) := by simpa using he
        subst hek
        exact hmem
    · by_cases hsw : searchWord (strLower k) tl
      · have hstep : extractGo tl ((c, k) :: rest) found names =
            extractGo tl rest (found ++ [⟨k, c⟩]) (names ++ [strLower k]) := by
          simp [extractGo, hmem, hsw]
        rw [hstep]
        have hfind : catalogEntries.find? (fun e => strLower e.2 == strLower k) = some (c, k) := by
          rw [hsplit]
          rw [List.find?_append]
          have hdnone : done.find? (fun e => strLower e.2 == strLower k) = none := by
            rw [List.find?_eq_none]
            intro e he hbeq
            have heq : strLower e.2 = strLower k := by simpa using hbeq
            have hsw' : searchWord (strLower e.2) tl = true := by
              rw [heq]; exact hsw
            exact hmem (heq ▸ hdone e he hsw')
          rw [hdnone]
          simp
        refine ih (done ++ [(c, k)]) (found ++ [⟨k, c⟩]) (names ++ [strLower k]) hsplit' ?_ ?_ ?_ ?_
        · simp [hnames]
        · refine List.Nodup.append hnodup (by simp) ?_
          intro a ha hb
          have hab : a = strLower k := by simpa using hb
          exact hmem (hab ▸ ha)
        · intro s hs
          rcases List.mem_append.mp hs with hs | hs
          · exact hfound s hs
          · have hsk : s = ⟨k, c⟩ := by simpa using hs
            subst hsk
            exact hfind
        · intro e he hsw'
          rcases List.mem_append.mp he with he | he
          · exact List.mem_append_left _ (hdone e he hsw')
          · have hek : e = (c, k) := by simpa using he
            subst hek
            simp
      · have hstep : extractGo tl ((c, k) :: rest) found names = extractGo tl rest found names := by
          simp [extractGo, hmem, hsw]
        rw [hstep]
        refine ih (done ++ [(c, k)]) found names hsplit' hnames hnodup hfound ?_
        intro e he hsw'
        rcases List.mem_append.mp he with he | he
        · exact hdone e he hsw'
        · have hek : e = (c, k) := by simpa using he
          subst hek
          exact absurd hsw' (by simpa using hsw)

/-- C5: one analysis never records two findings with the same lowercased
name — no keyword is attributed to two categories — and each recorded
finding carries the first catalog entry (in category-then-keyword
declaration order) bearing its lowercased name, so on a cross-category
collision the first-seen category wins. -/
theorem extract_skills_unique_names (text : String) :
    ((extract_skills text).map (fun s => strLower s.name)).Nodup ∧
    (∀ s ∈ extract_skills text,
      catalogEntries.find? (fun e => strLower e.2 == strLower s.name) =
        some (s.category, s.name)) := by
  exact extractGo_invariant (strLower text) catalogEntries [] [] []
    (by simp) rfl (by simp) (by simp) (by simp)

theorem extract_skills_unique_names_witness :
    ((extract_skills ("Python and Java and SQL")).map (fun s => strLower s.name)).Nodup :=
  (extract_skills_unique_names ("Python and Java and SQL")).1

/- ### Claim C1: helper lemmas -/

theorem lex_orderedInsert (a : String × ℚ) (l : List (String × ℚ))
    (hl : l.Pairwise lexAfterSort) (ha : ∀ b ∈ l, roleRank a.1 < roleRank b.1) :
    (List.orderedInsert scoreDescRel a l).Pairwise lexAfterSort := by
  induction l with
  | nil => simp [List.orderedInsert, lexAfterSort]
  | cons b t ih =>
    rw [List.pairwise_cons] at hl
    obtain ⟨hb, ht⟩ := hl
    rw [List.orderedInsert]
    by_cases h : scoreDescRel a b
    · rw [if_pos h]
      rw [List.pairwise_cons]
      refine ⟨?_, List.pairwise_cons.mpr ⟨hb, ht⟩⟩
      intro c hc
      have hba : b.2 ≤ a.2 := h
      have hc2 : c.2 ≤ a.2 := by
        rcases List.mem_cons.mp hc with rfl | hc
        · exact hba
        · rcases hb c hc with h1 | ⟨h1, _⟩
          · exact le_trans (le_of_lt h1) hba
          · exact le_trans (le_of_eq h1.symm) hba
      rcases lt_or_eq_of_le hc2 with hlt | heq
      · exact Or.inl hlt
      · exact Or.inr ⟨heq.symm, ha c hc⟩
    · rw [if_neg h]
      have hab : a.2 < b.2 := lt_of_not_le h
      rw [List.pairwise_cons]
      refine ⟨?_, ih ht (fun c hc => ha c (List.mem_cons_of_mem _ hc))⟩
      intro c hc
      rw [List.mem_orderedInsert] at hc
      rcases hc with rfl | hc
      · exact Or.inl hab
      · exact hb c hc

theorem lex_insertionSort (l : List (String × ℚ))
    (hl : l.Pairwise (fun a b => roleRank a.1 < roleRank b.1)) :
    (List.insertionSort scoreDescRel l).Pairwise lexAfterSort := by
  induction l with
  | nil => simp [List.insertionSort]
  | cons a t ih =>
    rw [List.pairwise_cons] at hl
    obtain ⟨ha, ht⟩ := hl
    rw [List.insertionSort]
    refine lex_orderedInsert a _ (ih ht) ?_
    intro b hb
    exact ha b ((List.perm_insertionSort scoreDescRel t).mem_iff.mp hb)

theorem jobRoles_rank_pairwise :
    JOB_ROLES.Pairwise (fun p q => roleRank p.1 < roleRank q.1) := by
  decide

theorem roleScores_rank_pairwise (skills : List Skill) :
    (roleScores skills).Pairwise (fun a b => roleRank a.1 < roleRank b.1) := by
  unfold roleScores
  exact List.Pairwise.map _ (fun a b h => h) jobRoles_rank_pairwise

theorem grid_6_8 (a b : ℕ) :
    OnGrid ((((a : ℚ) / 6) * (7 / 10) + ((b : ℚ) / 8) * (3 / 10)) * 100) := by
  refine ⟨588 * a + 189 * b, ?_⟩
  push_cast
  ring

theorem grid_9_9 (a b : ℕ) :
    OnGrid ((((a : ℚ) / 9) * (7 / 10) + ((b : ℚ) / 9) * (3 / 10)) * 100) := by
  refine ⟨392 * a + 168 * b, ?_⟩
  push_cast
  ring

theorem grid_8_7 (a b : ℕ) :
    OnGrid ((((a : ℚ) / 8) * (7 / 10) + ((b : ℚ) / 7) * (3 / 10)) * 100) := by
  refine ⟨441 * a + 216 * b, ?_⟩
  push_cast
  ring

theorem rawScore_onGrid (p : String × RoleReq) (hp : p ∈ JOB_ROLES) (found : List String) :
    OnGrid (rawScore p.2 found) := by
  fin_cases hp <;>
    simp only [rawScore] <;>
    norm_num <;>
    first
      | exact grid_6_8 _ _
      | exact grid_9_9 _ _
      | exact grid_8_7 _ _

theorem round_mono_q {a b : ℚ} (h : a ≤ b) : round a ≤ round b := by
  rw [round_eq, round_eq]
  exact Int.floor_le_floor (by linarith)

theorem round2_mono {a b : ℚ} (h : a ≤ b) : round2 a ≤ round2 b := by
  unfold round2
  have h2 : round (a * 100) ≤ round (b * 100) := round_mono_q (by linarith)
  have h3 : ((round (a * 100) : ℤ) : ℚ) ≤ ((round (b * 100) : ℤ) : ℚ) := by exact_mod_cast h2
  linarith

theorem round2_zero : round2 0 = 0 := by
  unfold round2
  rw [zero_mul, round_zero]
  norm_num

theorem round2_hundred : round2 100 = 100 := by
  unfold round2
  rw [show ((100 : ℚ) * 100) = ((10000 : ℤ) : ℚ) by norm_num, round_intCast]
  norm_num

theorem round2_strict_grid {a b : ℚ} (ha : OnGrid a) (hb : OnGrid b) (h : a < b) :
    round2 a < round2 b := by
  obtain ⟨m, hm⟩ := ha
  obtain ⟨n, hn⟩ := hb
  have hmn : (m : ℚ) < n := by
    have h5 : (5 : ℚ) * m < 5 * n := by
      calc (5 : ℚ) * m = a * 252 := hm.symm
        _ < b * 252 := by linarith
        _ = 5 * n := hn
    linarith
  have hmn' : m < n := by exact_mod_cast hmn
  have hm1 : (m : ℚ) + 1 ≤ n := by exact_mod_cast Nat.succ_le_of_lt hmn'
  have hgap : a * 100 + 1 ≤ b * 100 := by linarith
  have h2 : round (a * 100) + 1 ≤ round (b * 100) := by
    have e1 : round (a * 100 + ((1 : ℤ) : ℚ)) = round (a * 100) + 1 := by
      rw [round_add_int]
    have e2 : round (a * 100 + ((1 : ℤ) : ℚ)) ≤ round (b * 100) :=
      round_mono_q (by push_cast; linarith)
    omega
  unfold round2
  have h3 : ((round (a * 100) : ℤ) : ℚ) + 1 ≤ ((round (b * 100) : ℤ) : ℚ) := by
    exact_mod_cast h2
  linarith

theorem interCount_le (found : List String) (l : List String) :
    interCount found l ≤ l.length :=
  le_trans (List.length_filter_le _ _) (List.Sublist.length_le (List.dedup_sublist l))

theorem rawScore_range (req : RoleReq) (found : List String) :
    0 ≤ rawScore req found ∧ rawScore req found ≤ 100 := by
  have key : ∀ (c t : ℕ), c ≤ t →
      0 ≤ (if t > 0 then (c : ℚ) / t else 0) ∧ (if t > 0 then (c : ℚ) / t else 0) ≤ 1 := by
    intro c t hct
    split_ifs with ht
    · constructor
      · positivity
      · rw [div_le_one (by exact_mod_cast ht)]
        exact_mod_cast hct
    · norm_num
  obtain ⟨h1a, h1b⟩ := key (interCount found req.required_skills) req.required_skills.length
    (interCount_le _ _)
  obtain ⟨h2a, h2b⟩ := key (interCount found req.good_to_have) req.good_to_have.length
    (interCount_le _ _)
  simp only [rawScore]
  constructor <;> nlinarith

theorem jobRoles_keys_inj :
    ∀ p ∈ JOB_ROLES, ∀ q ∈ JOB_ROLES, p.1 = q.1 → p = q := by decide

theorem suggest_mem_char (skills : List Skill) (m : RoleMatch)
    (hm : m ∈ suggest_role_matches skills) :
    ∃ p, p ∈ JOB_ROLES ∧ m.role = p.1 ∧
      m.score = round2 (rawScore p.2 (skillNamesFound skills)) := by
  unfold suggest_role_matches at hm
  rw [List.mem_map] at hm
  obtain ⟨pr, hpr, hfm⟩ := hm
  have hpr2 : pr ∈ roleScores skills :=
    (List.perm_insertionSort scoreDescRel (roleScores skills)).mem_iff.mp hpr
  unfold roleScores at hpr2
  rw [List.mem_map] at hpr2
  obtain ⟨p, hp, hgp⟩ := hpr2
  subst hfm
  subst hgp
  exact ⟨p, hp, rfl, rfl⟩

theorem suggest_role_exists (skills : List Skill) (p : String × RoleReq)
    (hp : p ∈ JOB_ROLES) :
    ∃ m, m ∈ suggest_role_matches skills ∧ m.role = p.1 ∧
      m.score = round2 (rawScore p.2 (skillNamesFound skills)) := by
  refine ⟨⟨p.1, round2 (rawScore p.2 (skillNamesFound skills))⟩, ?_, rfl, rfl⟩
  unfold suggest_role_matches
  rw [List.mem_map]
  refine ⟨(p.1, rawScore p.2 (skillNamesFound skills)), ?_, rfl⟩
  rw [(List.perm_insertionSort scoreDescRel _).mem_iff]
  unfold roleScores
  exact List.mem_map.mpr ⟨p, hp, rfl⟩

/-- C1: for every skill list, suggest_role_matches yields exactly the
catalog's roles (one match per role); each score is the weighted
0.7/0.3 formula rounded to two decimals; every score lies in [0, 100];
and the list is ordered by descending score with ties in catalog
insertion order. -/
theorem suggest_role_matches_spec (skills : List Skill) :
    ((suggest_role_matches skills).map RoleMatch.role).Perm (JOB_ROLES.map Prod.fst) ∧
    (∀ p ∈ JOB_ROLES, ∀ m ∈ suggest_role_matches skills, m.role = p.1 →
      m.score = round2 (rawScore p.2 (skillNamesFound skills))) ∧
    (∀ m ∈ suggest_role_matches skills, 0 ≤ m.score ∧ m.score ≤ 100) ∧
    (suggest_role_matches skills).Pairwise lexOnMatches := by
  refine ⟨?_, ?_, ?_, ?_⟩
  · have hperm := List.perm_insertionSort scoreDescRel (roleScores skills)
    have h1 : (suggest_role_matches skills).map RoleMatch.role =
        (List.insertionSort scoreDescRel (roleScores skills)).map Prod.fst := by
      unfold suggest_role_matches
      rw [List.map_map]
      rfl
    have h2 := hperm.map Prod.fst
    have h3 : (roleScores skills).map Prod.fst = JOB_ROLES.map Prod.fst := by
      unfold roleScores
      rw [List.map_map]
      rfl
    rw [h1]
    rw [h3] at h2
    exact h2
  · intro p hp m hm hrole
    obtain ⟨q, hq, hqr, hqs⟩ := suggest_mem_char skills m hm
    have hqp : q = p := jobRoles_keys_inj q hq p hp (by rw [← hqr, hrole])
    rw [hqs, hqp]
  · intro m hm
    obtain ⟨q, hq, hqr, hqs⟩ := suggest_mem_char skills m hm
    obtain ⟨h0, h100⟩ := rawScore_range q.2 (skillNamesFound skills)
    rw [hqs]
    constructor
    · calc (0 : ℚ) = round2 0 := round2_zero.symm
        _ ≤ round2 _ := round2_mono h0
    · calc round2 _ ≤ round2 100 := round2_mono h100
        _ = 100 := round2_hundred
  · have hsorted := lex_insertionSort (roleScores skills) (roleScores_rank_pairwise skills)
    unfold suggest_role_matches
    rw [List.pairwise_map]
    refine List.Pairwise.imp_of_mem ?_ hsorted
    intro x y hx hy hxy
    have hgrid : ∀ z, z ∈ List.insertionSort scoreDescRel (roleScores skills) →
        OnGrid z.2 := by
      intro z hz
      have hz' : z ∈ roleScores skills :=
        (List.perm_insertionSort scoreDescRel _).mem_iff.mp hz
      unfold roleScores at hz'
      rw [List.mem_map] at hz'
      obtain ⟨p, hp, hpz⟩ := hz'
      rw [← hpz]
      exact rawScore_onGrid p hp _
    rcases hxy with hlt | ⟨heq, hrank⟩
    · exact Or.inl (round2_strict_grid (hgrid y hy) (hgrid x hx) hlt)
    · exact Or.inr ⟨by rw [heq], hrank⟩

theorem suggest_role_matches_spec_witness :
    ((suggest_role_matches pySkills).map RoleMatch.role).Perm (JOB_ROLES.map Prod.fst) ∧
    (suggest_role_matches pySkills).Pairwise lexOnMatches :=
  ⟨(suggest_role_matches_spec pySkills).1, (suggest_role_matches_spec pySkills).2.2.2⟩

/- ### Claim C3 -/

theorem dedup_id_catalog :
    ∀ p ∈ JOB_ROLES, p.2.required_skills.dedup = p.2.required_skills ∧
      p.2.good_to_have.dedup = p.2.good_to_have := by decide

theorem sortStr_spec (l : List String) (hl : l.Nodup) :
    (sortStr l).Pairwise strAscRel ∧ (sortStr l).Nodup ∧ ∀ x, x ∈ sortStr l ↔ x ∈ l := by
  refine ⟨List.sorted_insertionSort strAscRel l, ?_, ?_⟩
  · exact ((List.perm_insertionSort strAscRel l).nodup_iff).mpr hl
  · intro x
    exact (List.perm_insertionSort strAscRel l).mem_iff

theorem sortStr_filter_inter (src found : List String) :
    SortedInter (sortStr (src.dedup.filter (fun s => found.contains s))) src found := by
  have hnd : (src.dedup.filter (fun s => found.contains s)).Nodup :=
    (List.nodup_dedup src).filter _
  obtain ⟨s1, s2, s3⟩ := sortStr_spec _ hnd
  refine ⟨s1, s2, ?_⟩
  intro x
  rw [s3 x]
  simp [List.mem_filter, List.mem_dedup]

theorem sortStr_filter_diff (src found : List String) :
    SortedDiff (sortStr (src.dedup.filter (fun s => !(found.contains s)))) src found := by
  have hnd : (src.dedup.filter (fun s => !(found.contains s))).Nodup :=
    (List.nodup_dedup src).filter _
  obtain ⟨s1, s2, s3⟩ := sortStr_spec _ hnd
  refine ⟨s1, s2, ?_⟩
  intro x
  rw [s3 x]
  simp [List.mem_filter, List.mem_dedup]

/-- C3 (amended): analyze_target_role returns none exactly when the target
role is absent from the catalog; when present it returns the role, the
unrounded weighted score — whose two-decimal rounding is exactly the score
suggest_role_matches assigns that same role — and the four sorted found and
missing skill-set breakdowns. -/
theorem analyze_target_role_spec (skills : List Skill) (target_role : String) :
    (analyze_target_role skills target_role = none ↔
      target_role ∉ JOB_ROLES.map Prod.fst) ∧
    (∀ t, analyze_target_role skills target_role = some t →
      ∃ p, p ∈ JOB_ROLES ∧ p.1 = target_role ∧
        t.role = target_role ∧
        t.score = rawScore p.2 (skillNamesFound skills) ∧
        (∃ m, m ∈ suggest_role_matches skills ∧ m.role = target_role ∧
          m.score = round2 t.score) ∧
        (∀ m ∈ suggest_role_matches skills, m.role = target_role →
          m.score = round2 t.score) ∧
        SortedInter t.required_found p.2.required_skills (skillNamesFound skills) ∧
        SortedDiff t.required_missing p.2.required_skills (skillNamesFound skills) ∧
        SortedInter t.good_to_have_found p.2.good_to_have (skillNamesFound skills) ∧
        SortedDiff t.good_to_have_missing p.2.good_to_have (skillNamesFound skills)) := by
  cases hfind : JOB_ROLES.find? (fun p => p.1 == target_role) with
  | none =>
    have hnone : analyze_target_role skills target_role = none := by
      unfold analyze_target_role
      rw [hfind]
    have hnotin : target_role ∉ JOB_ROLES.map Prod.fst := by
      rw [List.find?_eq_none] at hfind
      intro hmem
      rw [List.mem_map] at hmem
      obtain ⟨p, hp, hpt⟩ := hmem
      exact (hfind p hp) (by simp [hpt])
    refine ⟨⟨fun _ => hnotin, fun _ => hnone⟩, ?_⟩
    intro t ht
    rw [hnone] at ht
    exact absurd ht (by simp)
  | some p =>
    have hp : p ∈ JOB_ROLES := List.mem_of_find?_eq_some hfind
    have hpt : p.1 = target_role := by simpa using List.find?_some hfind
    have hin : target_role ∈ JOB_ROLES.map Prod.fst := List.mem_map.mpr ⟨p, hp, hpt⟩
    have hd := dedup_id_catalog p hp
    constructor
    · constructor
      · intro h
        unfold analyze_target_role at h
        rw [hfind] at h
        exact absurd h (by simp)
      · intro h
        exact absurd hin h
    · intro t ht
      unfold analyze_target_role at ht
      rw [hfind] at ht
      have ht' := Option.some.inj ht
      subst ht'
      have hsc : (rawScore p.2 (skillNamesFound skills)) =
          ((if p.2.required_skills.dedup.length > 0 then
              ((p.2.required_skills.dedup.filter
                (fun s => (skillNamesFound skills).contains s)).length : ℚ) /
                p.2.required_skills.dedup.length
            else 0) * (7 / 10) +
           (if p.2.good_to_have.dedup.length > 0 then
              ((p.2.good_to_have.dedup.filter
                (fun s => (skillNamesFound skills).contains s)).length : ℚ) /
                p.2.good_to_have.dedup.length
            else 0) * (3 / 10)) * 100 := by
        simp only [rawScore, interCount]
        rw [hd.1, hd.2]
      refine ⟨p, hp, hpt, rfl, hsc.symm, ?_, ?_, ?_, ?_, ?_, ?_⟩
      · obtain ⟨m, hm, hrole, hscore⟩ := suggest_role_exists skills p hp
        exact ⟨m, hm, by rw [hrole, hpt], by rw [hscore]; exact congrArg round2 hsc⟩
      · intro m hm hrole
        obtain ⟨q, hq, hqr, hqs⟩ := suggest_mem_char skills m hm
        have hqp : q = p := jobRoles_keys_inj q hq p hp (by rw [← hqr, hrole, ← hpt])
        rw [hqs, hqp]
        exact congrArg round2 hsc
      · exact sortStr_filter_inter p.2.required_skills (skillNamesFound skills)
      · exact sortStr_filter_diff p.2.required_skills (skillNamesFound skills)
      · exact sortStr_filter_inter p.2.good_to_have (skillNamesFound skills)
      · exact sortStr_filter_diff p.2.good_to_have (skillNamesFound skills)

theorem analyze_target_role_spec_witness :
    analyze_target_role [] ("Galactic Emperor") = none :=
  ((analyze_target_role_spec [] ("Galactic Emperor")).1).mpr (by decide)

theorem round_3500_div_3 : round ((35 : ℚ) / 3 * 100) = 1167 := by
  have h : ((35 : ℚ) / 3 * 100 + 1 / 2) = 7003 / 6 := by norm_num
  rw [round_eq, h, Int.floor_eq_iff]
  constructor <;> norm_num

theorem round2_35_3 : round2 ((35 : ℚ) / 3) = 1167 / 100 := by
  unfold round2
  rw [round_3500_div_3]
  norm_num

/-- C3 counterexample: with the single found skill python and target role
Software Engineer, analyze_target_role reports the unrounded score 35/3,
while suggest_role_matches reports the rounded 1167/100 for that same role,
so the two scores are not equal as the claim states. -/
theorem analyze_target_role_score_counterexample :
    ∃ t, analyze_target_role pySkills ("Software Engineer") = some t ∧
      (∃ m, m ∈ suggest_role_matches pySkills ∧ m.role = ("Software Engineer")) ∧
      (∀ m ∈ suggest_role_matches pySkills, m.role = ("Software Engineer") →
        m.score ≠ t.score) := by
  have hpSE : (("Software Engineer"),
      (⟨["python", "java", "javascript", "sql", "git", "teamwork"],
        ["docker", "kubernetes", "aws", "ci/cd", "agile", "react", "node.js", "c++"],
        ["development", "implementation", "testing", "debugging", "optimization",
         "code review"]⟩ : RoleReq)) ∈ JOB_ROLES := by
    unfold JOB_ROLES
    exact List.Mem.head _
  have hraw : rawScore
      ⟨["python", "java", "javascript", "sql", "git", "teamwork"],
       ["docker", "kubernetes", "aws", "ci/cd", "agile", "react", "node.js", "c++"],
       ["development", "implementation", "testing", "debugging", "optimization",
        "code review"]⟩ (skillNamesFound pySkills) = (35 : ℚ) / 3 := by
    have e1 : interCount (skillNamesFound pySkills)
        ["python", "java", "javascript", "sql", "git", "teamwork"] = 1 := by decide
    have e2 : interCount (skillNamesFound pySkills)
        ["docker", "kubernetes", "aws", "ci/cd", "agile", "react", "node.js", "c++"] = 0 := by
      decide
    simp only [rawScore, e1, e2]
    norm_num
  refine ⟨⟨("Software Engineer"),
    (((1 : ℕ) : ℚ) / 6 * (7 / 10) + ((0 : ℕ) : ℚ) / 8 * (3 / 10)) * 100,
    sortStr [("python")],
    sortStr [("java"), ("javascript"), ("sql"), ("git"), ("teamwork")],
    sortStr [],
    sortStr [("docker"), ("kubernetes"), ("aws"), ("ci/cd"), ("agile"), ("react"),
      ("node.js"), ("c++")]⟩, ?_, ?_, ?_⟩
  · rfl
  · obtain ⟨m, hm, hrole, _⟩ := suggest_role_exists pySkills _ hpSE
    exact ⟨m, hm, hrole⟩
  · intro m hm hrole
    obtain ⟨q, hq, hqr, hqs⟩ := suggest_mem_char pySkills m hm
    have hqp := jobRoles_keys_inj q hq _ hpSE (by rw [← hqr, hrole])
    rw [hqs, hqp, hraw, round2_35_3]
    dsimp only
    norm_num

/- ### Claim C8 -/

theorem validSetOrder_dedup : ValidSetOrder soDedup :=
  fun l => ⟨l.nodup_dedup, fun _ => List.mem_dedup⟩

theorem validSetOrder_dedupRev : ValidSetOrder soDedupRev :=
  fun l => ⟨List.nodup_reverse.mpr l.nodup_dedup,
    fun x => by
      constructor
      · intro h
        exact List.mem_dedup.mp (List.mem_reverse.mp h)
      · intro h
        exact List.mem_reverse.mpr (List.mem_dedup.mpr h)⟩

/-- C8 (amended): when the date finder returns a non-empty entity list, the
experience summary contains the marker string; it is duplicate-free; the
kept date entities are at most 10 newline-stripped entity texts, all present
in the summary; every summary element is the marker, a year-mention string
or a kept date; and the kept dates are maximal by length among the distinct
stripped entities.  The order of the returned list itself is a set
materialisation and carries no guarantee. -/
theorem analyze_experience_dates (text : String) (ds : List String)
    (so1 so2 : List String → List String)
    (h1 : ValidSetOrder so1) (h2 : ValidSetOrder so2) (hds : ds ≠ []) :
    ("Key Dates Found:") ∈ analyze_experience text (some ds) so1 so2 ∧
    (analyze_experience text (some ds) so1 so2).Nodup ∧
    (selectedDates ds so1).length ≤ 10 ∧
    (∀ d ∈ selectedDates ds so1, d ∈ analyze_experience text (some ds) so1 so2 ∧
      d ∈ ds.map stripNewlines) ∧
    (∀ x ∈ analyze_experience text (some ds) so1 so2,
      x = ("Key Dates Found:") ∨ x ∈ yearMentions text ∨ x ∈ selectedDates ds so1) ∧
    (∀ d, d ∈ ds.map stripNewlines → d ∉ selectedDates ds so1 →
      ∀ s ∈ selectedDates ds so1, d.length ≤ s.length) := by
  have hne : (ds.map stripNewlines).isEmpty = false := by
    cases ds with
    | nil => exact absurd rfl hds
    | cons d rest => rfl
  have hres : analyze_experience text (some ds) so1 so2 =
      so2 (yearMentions text ++ ("Key Dates Found:") :: selectedDates ds so1) := by
    simp [analyze_experience, hne]
  obtain ⟨hnodup2, hmem2⟩ := h2 (yearMentions text ++ ("Key Dates Found:") :: selectedDates ds so1)
  obtain ⟨hnodup1, hmem1⟩ := h1 (ds.map stripNewlines)
  have hselmem : ∀ d ∈ selectedDates ds so1, d ∈ ds.map stripNewlines := by
    intro d hd
    have hd2 : d ∈ List.insertionSort lenDescRel (so1 (ds.map stripNewlines)) :=
      List.mem_of_mem_take hd
    have hd3 : d ∈ so1 (ds.map stripNewlines) :=
      (List.perm_insertionSort lenDescRel _).mem_iff.mp hd2
    exact (hmem1 d).mp hd3
  refine ⟨?_, ?_, ?_, ?_, ?_, ?_⟩
  · rw [hres]
    exact (hmem2 _).mpr (List.mem_append_right _ (List.mem_cons_self _ _))
  · rw [hres]
    exact hnodup2
  · exact List.length_take_le 10 _
  · intro d hd
    refine ⟨?_, hselmem d hd⟩
    rw [hres]
    exact (hmem2 d).mpr (List.mem_append_right _ (List.mem_cons_of_mem _ hd))
  · intro x hx
    rw [hres] at hx
    rcases List.mem_append.mp ((hmem2 x).mp hx) with hx | hx
    · exact Or.inr (Or.inl hx)
    · rcases List.mem_cons.mp hx with hx | hx
      · exact Or.inl hx
      · exact Or.inr (Or.inr hx)
  · intro d hd hdnot s hs
    have hd1 : d ∈ so1 (ds.map stripNewlines) := (hmem1 d).mpr hd
    have hd2 : d ∈ List.insertionSort lenDescRel (so1 (ds.map stripNewlines)) :=
      (List.perm_insertionSort lenDescRel _).mem_iff.mpr hd1
    have hsplit := List.take_append_drop 10 (List.insertionSort lenDescRel
      (so1 (ds.map stripNewlines)))
    have hsorted : (List.insertionSort lenDescRel (so1 (ds.map stripNewlines))).Pairwise
        lenDescRel := List.sorted_insertionSort lenDescRel _
    rw [← hsplit] at hsorted hd2
    rcases List.mem_append.mp hd2 with hd3 | hd3
    · exact absurd hd3 hdnot
    · have := (List.pairwise_append.mp hsorted).2.2 s hs d hd3
      exact this

theorem analyze_experience_dates_witness :
    (ValidSetOrder soDedup ∧ (([("3 May")] : List String) ≠ [])) ∧
    (("Key Dates Found:") ∈ analyze_experience ("") (some [("3 May")]) soDedup soDedup ∧
      (analyze_experience ("") (some [("3 May")]) soDedup soDedup).Nodup) :=
  ⟨⟨validSetOrder_dedup, by decide⟩,
   ⟨(analyze_experience_dates ("") [("3 May")] soDedup soDedup
       validSetOrder_dedup validSetOrder_dedup (by decide)).1,
    (analyze_experience_dates ("") [("3 May")] soDedup soDedup
       validSetOrder_dedup validSetOrder_dedup (by decide)).2.1⟩⟩

/-- C8 counterexample: with no year mentions, date entities aa and b, and
admissible set materialisations (first-occurrence dedup for the inner set,
reversal for the outer one), the returned list carries its date entities in
ascending length order, refuting the claim that the result is ordered by
string length descending. -/
theorem analyze_experience_order_counterexample :
    ValidSetOrder soDedup ∧ ValidSetOrder soDedupRev ∧
    ¬ (((analyze_experience ("") (some [("aa"), ("b")]) soDedup soDedupRev).filter
        (fun x => (selectedDates [("aa"), ("b")] soDedup).contains x)).Pairwise
          (fun a b => b.length ≤ a.length)) :=
  ⟨validSetOrder_dedup, validSetOrder_dedupRev, by decide⟩
